import Mathlib

/-!
Verification of the Bilingual-Scholar document-to-study-guide pipeline.

Strings are modelled as `List Char` (JS strings, code-unit subtleties aside).
The embedded functions mirror, statement by statement:
  * `chunkText`            — src/services/geminiService.ts, lines 9–29
  * the retry loop of `generateStudyGuide`
                           — src/services/geminiService.ts, lines 103–162
  * the image reconciliation of `handleFileSelect`
                           — src/App.tsx, lines 103–114
  * `extractTextFromFile` / `extractPdfText`
                           — the file parser service (routing and PDF branch)
External collaborators (the Gemini client, pdf.js, JSZip) are modelled as
oracles passed in as parameters; everything else is translated directly.
-/

namespace BilingualScholar

/-- Strings as lists of characters. -/
abbrev Str := List Char

/-! ### Character classes

`isWsChar` is the ASCII part of the whitespace class used both by
JavaScript `String.prototype.trim` and by the regex class `\s`
(space, tab, line feed, carriage return, vertical tab, form feed).
The Unicode space characters also included by JS never occur in the
inputs any theorem below touches. -/

/-- ASCII whitespace, shared by the models of JS `trim` and regex `\s`. -/
def isWsChar (c : Char) : Bool :=
  c == ' ' || c == '\t' || c == '\n' || c == '\r' ||
  c == Char.ofNat 11 || c == Char.ofNat 12

/-- JS `s.trim()`: drop whitespace from both ends. -/
def trimStr (s : Str) : Str :=
  ((s.dropWhile isWsChar).reverse.dropWhile isWsChar).reverse

/-- JS `text.split('\n')`.  Always returns a non-empty list;
`splitNl [] = [[]]` just as `"".split('\n') = [""]`. -/
def splitNl : Str → List Str
  | [] => [[]]
  | c :: rest =>
    if c = '\n' then [] :: splitNl rest
    else
      match splitNl rest with
      | [] => [[c]]
      | l :: ls => (c :: l) :: ls

/-- Join a list of lines, terminating every line with `'\n'` —
this is the shape in which `chunkText` accumulates text. -/
def joinLines (ls : List Str) : Str :=
  (ls.map (fun l => l ++ ['\n'])).flatten

/-! ### chunkText (src/services/geminiService.ts, lines 9–29)

```
for (const line of lines) {
  if ((currentChunk.length + line.length) > maxLength && currentChunk.length > 0) {
    chunks.push(currentChunk);
    currentChunk = "";
  }
  currentChunk += line + "\n";
}
if (currentChunk.trim().length > 0) { chunks.push(currentChunk); }
```
State of the loop: `(chunks so far, currentChunk)`. -/

/-- One iteration of the `for (const line of lines)` loop of `chunkText`. -/
def chunkStep (maxLength : Nat) (st : List Str × Str) (line : Str) : List Str × Str :=
  if st.2.length + line.length > maxLength ∧ 0 < st.2.length then
    (st.1 ++ [st.2], line ++ ['\n'])
  else
    (st.1, st.2 ++ line ++ ['\n'])

/-- `chunkText` from src/services/geminiService.ts. -/
def chunkText (text : Str) (maxLength : Nat) : List Str :=
  let lines := splitNl text
  let r := lines.foldl (chunkStep maxLength) ([], [])
  if 0 < (trimStr r.2).length then r.1 ++ [r.2] else r.1

/-- The chunk size hard-coded in `generateStudyGuide`. -/
def CHUNK_SIZE : Nat := 4000

/-- Modelled from the claim C5's words (not from the source): the same
accumulator loop, but the flush test counts the line terminator —
"if appending it (plus its line terminator) would make the accumulator
exceed maxLength".  Used only to compare the claim against `chunkText`. -/
def chunkStepClaimC5 (maxLength : Nat) (st : List Str × Str) (line : Str) :
    List Str × Str :=
  if st.2.length + line.length + 1 > maxLength ∧ 0 < st.2.length then
    (st.1 ++ [st.2], line ++ ['\n'])
  else
    (st.1, st.2 ++ line ++ ['\n'])

/-- Modelled from the claim C5's words: `chunkText` as claim C5 states it. -/
def chunkTextClaimC5 (text : Str) (maxLength : Nat) : List Str :=
  let lines := splitNl text
  let r := lines.foldl (chunkStepClaimC5 maxLength) ([], [])
  if 0 < (trimStr r.2).length then r.1 ++ [r.2] else r.1

/-! ### Data model (src/types.ts)

TypeScript optional fields are modelled with `Option`; the optional
`images?: string[]` and `questions?: ExamQuestion[]` arrays are modelled as
plain lists, `[]` standing for absent, which is how the rest of the code
treats them. -/

structure StudyPoint where
  english : Str
  chinese : Str
  keyTerm : Option Str
deriving DecidableEq

structure ExamQuestion where
  question : Str
  options : List Str
  correctIndex : Nat
  explanation : Str
deriving DecidableEq

structure StudySection where
  topic : Str
  content : List StudyPoint
  images : List Str
  visualSummary : Option Str
  questions : List ExamQuestion
deriving DecidableEq

/-- `ParsedResult` from src/types.ts: extracted text plus the map from
1-based page/slide number to image handles, modelled as an association
list (JS object keys are unique; lookup is by key). -/
structure ParsedResult where
  text : Str
  imageMap : List (Nat × List Str)
deriving DecidableEq

/-! ### The retry loop of `generateStudyGuide`
(src/services/geminiService.ts, lines 109–153)

One `ai.models.generateContent` call, together with the code that consumes
its response, has exactly three observable behaviours from the loop's point
of view:

  * the `await` rejects, `JSON.parse` throws, or `data.sections` is missing
    or not an array (the explicit `throw new Error("Invalid JSON structure")`)
    — all end in the `catch` block: `retries++`, and `errorCount++` when the
    cap is reached (`throws`);
  * the call resolves but `response.text` is falsy (empty or absent body) —
    the `if (responseText)` guard just falls through: no `catch`, `retries`
    and `success` unchanged, so the loop immediately re-attempts
    (`emptyBody`);
  * `response.text` is truthy, parses, and `data.sections` is a truthy array
    `l` — note that an empty array is truthy in JS, so `sectionsArr []` is
    reachable: the sections are appended and `success = true`
    (`sectionsArr l`).

The generation capability is an oracle mapping the index of the call (per
chunk) to its outcome. -/

inductive AttemptOutcome where
  | throws : AttemptOutcome
  | emptyBody : AttemptOutcome
  | sectionsArr : List StudySection → AttemptOutcome
deriving DecidableEq

/-- `const maxRetries = 3` in `generateStudyGuide`. -/
def maxRetries : Nat := 3

/-- The `while (retries < maxRetries && !success)` loop for one chunk.
`oracle j` is the outcome of the chunk's `j`-th `generateContent` call,
`retries` and `calls` are the loop counters.  The result is the sections the
chunk appended, its `success` flag, and the number of calls it made; `none`
means the fuel ran out while the loop was still running (the code would
keep looping — this happens under persistent `emptyBody` outcomes). -/
def runChunk (oracle : Nat → AttemptOutcome) :
    Nat → Nat → Nat → Option (List StudySection × Bool × Nat)
  | 0, _, _ => none
  | fuel + 1, retries, calls =>
    if retries < maxRetries then
      match oracle calls with
      | .sectionsArr l => some (l, true, calls + 1)
      | .throws => runChunk oracle fuel (retries + 1) (calls + 1)
      | .emptyBody => runChunk oracle fuel retries (calls + 1)
    else
      some ([], false, calls)

/-- Run the chunk loop for each chunk oracle in order (the
`for (let i = 0; ...)` loop), collecting each chunk's result. -/
def runChunksList (fuel : Nat) :
    List (Nat → AttemptOutcome) → Option (List (List StudySection × Bool × Nat))
  | [] => some []
  | o :: os =>
    match runChunk o fuel 0 0, runChunksList fuel os with
    | some r, some rs => some (r :: rs)
    | _, _ => none

/-- Observable state of one whole `generateStudyGuide` run:
`sections` is `allSections` after the loop, `errorCount` the final
`errorCount` (incremented once per chunk that exhausts its retries), and
`calls`/`succ` record per chunk how many `generateContent` calls were made
and whether the chunk succeeded. -/
structure RunTrace where
  sections : List StudySection
  errorCount : Nat
  calls : List Nat
  succ : List Bool
deriving DecidableEq

/-- Aggregate the per-chunk results exactly as the `for` loop does:
`allSections` is the in-order concatenation of each chunk's appended
sections, and `errorCount` counts the chunks that exhausted their retries. -/
def runChunks (fuel : Nat) (os : List (Nat → AttemptOutcome)) : Option RunTrace :=
  (runChunksList fuel os).map fun rs =>
    { sections := (rs.map (fun r => r.1)).flatten
      errorCount := (rs.filter (fun r => !r.2.1)).length
      calls := rs.map (fun r => r.2.2)
      succ := rs.map (fun r => r.2.1) }

/-- The two errors `generateStudyGuide` can throw after the loop:
`Connection failed. Processed 0/N parts. …` (the `0` is hard-coded in the
template string) and `No content generated. The document might be empty or
unreadable.` -/
inductive GsError where
  | connectionFailed : Nat → Nat → GsError
  | noContent : GsError
deriving DecidableEq

instance {ε α : Type} [DecidableEq ε] [DecidableEq α] :
    DecidableEq (Except ε α) := fun x y =>
  match x, y with
  | .ok a, .ok b =>
    if h : a = b then .isTrue (by rw [h]) else .isFalse (by simp [h])
  | .error a, .error b =>
    if h : a = b then .isTrue (by rw [h]) else .isFalse (by simp [h])
  | .ok _, .error _ => .isFalse (by simp)
  | .error _, .ok _ => .isFalse (by simp)

/-- `generateStudyGuide` up to its post-loop checks: chunk the text with
`CHUNK_SIZE = 4000`, then drive the retry loop over every chunk.  Returns
the run's trace together with `chunks.length`.  `oracle i j` is the outcome
of chunk `i`'s `j`-th generation call. -/
def generateStudyGuideRun (oracle : Nat → Nat → AttemptOutcome) (fuel : Nat)
    (text : Str) : Option (RunTrace × Nat) :=
  let chunks := chunkText text CHUNK_SIZE
  (runChunks fuel ((List.range chunks.length).map oracle)).map
    (fun t => (t, chunks.length))

/-- Full `generateStudyGuide`: the post-loop failure analysis of
src/services/geminiService.ts, lines 155–162.
```
if (allSections.length === 0) {
  if (errorCount > 0) throw Connection failed. Processed 0/N parts.;
  throw No content generated.;
}
return allSections;
``` -/
def generateStudyGuideModel (oracle : Nat → Nat → AttemptOutcome) (fuel : Nat)
    (text : Str) : Option (Except GsError (List StudySection)) :=
  (generateStudyGuideRun oracle fuel text).map fun r =>
    if r.1.sections.length = 0 then
      if 0 < r.1.errorCount then .error (.connectionFailed 0 r.2)
      else .error .noContent
    else .ok r.1.sections

/-! ### A two-chunk input for the partial-failure claims

A second chunk only ever exists when the text exceeds `CHUNK_SIZE = 4000`
characters, so the concrete two-chunk scenarios below use a 4000-character
first line. -/

def bigLine : Str := List.replicate 4000 'a'

def bigText : Str := bigLine ++ '\n' :: ['b']

def secEx : StudySection := ⟨['t'], [], [], none, []⟩

def oracleC3A : Nat → Nat → AttemptOutcome :=
  fun i _ => if i = 0 then .sectionsArr [secEx] else .throws

def oracleC3B : Nat → Nat → AttemptOutcome :=
  fun i _ => if i = 0 then .sectionsArr [secEx] else .sectionsArr []

/-! ### Order preservation (claim C6) -/

/-- Offset at which chunk `i`'s block starts inside the flattened document:
the total length of the blocks of chunks `0 … i-1`. -/
def offsetOf {α : Type} (ps : List (List α)) (i : Nat) : Nat :=
  ((ps.take i).map List.length).sum

/-- The per-chunk section lists of a run, in chunk order (chunk `i`
contributed `(chunkSecs …)[i]`, failed chunks contributing `[]`). -/
def chunkSecs (oracle : Nat → Nat → AttemptOutcome) (fuel : Nat) (text : Str) :
    Option (List (List StudySection)) :=
  (runChunksList fuel
      ((List.range (chunkText text CHUNK_SIZE).length).map oracle)).map
    (fun rs => rs.map (fun r => r.1))

def secEx2 : StudySection := ⟨['u'], [], [], none, []⟩

def oracleC6 : Nat → Nat → AttemptOutcome :=
  fun i _ => if i = 0 then .sectionsArr [secEx, secEx2] else .sectionsArr [secEx2]

/-! ### Image reconciliation (src/App.tsx, lines 103–114)

```
const match = section.topic.match(/(?:Slide|Page)\s?(\d+)/i);
if (match && match[1]) {
  const index = parseInt(match[1]);
  if (imageMap[index]) { matchedImages = imageMap[index]; }
}
return { ...section, images: matchedImages };
```

The regex is modelled by hand: at each position, try the keyword `Slide`
then `Page` case-insensitively, then one optional `\s` character, then a
maximal non-empty digit run (the capture `match[1]`); the scan returns the
first (leftmost) position that matches.  `\s?` is greedy with backtracking:
if the character after the keyword is whitespace the digits must follow it
(the empty alternative would have to match a digit against that whitespace
character), otherwise the digits must start immediately. -/

/-- Case-insensitive keyword match: strip `pat` (given lowercase) from the
front of `s`, comparing lowercased characters. -/
def ciStrip : Str → Str → Option Str
  | [], s => some s
  | _ :: _, [] => none
  | p :: ps, c :: cs => if c.toLower = p then ciStrip ps cs else none

/-- `\d+`: a maximal non-empty leading digit run, or `none`. -/
def digitsRun (s : Str) : Option Str :=
  match s.takeWhile Char.isDigit with
  | [] => none
  | d :: ds => some (d :: ds)

/-- `\s?(\d+)` after the keyword: one optional whitespace character, then
the digit run. -/
def matchAfterKey : Str → Option Str
  | [] => none
  | c :: cs => if isWsChar c then digitsRun cs else digitsRun (c :: cs)

def slideKey : Str := ['s', 'l', 'i', 'd', 'e']

def pageKey : Str := ['p', 'a', 'g', 'e']

/-- Try the whole pattern `(?:Slide|Page)\s?(\d+)` anchored at the start of
`s`; returns the captured digit run. -/
def matchKeyAt (s : Str) : Option Str :=
  match ciStrip slideKey s with
  | some rest => matchAfterKey rest
  | none =>
    match ciStrip pageKey s with
    | some rest => matchAfterKey rest
    | none => none

/-- `topic.match(/(?:Slide|Page)\s?(\d+)/i)`: scan left to right and return
the first match's digit capture. -/
def findSlidePageNum : Str → Option Str
  | [] => none
  | c :: cs =>
    match matchKeyAt (c :: cs) with
    | some ds => some ds
    | none => findSlidePageNum cs

/-- `parseInt` on the captured run of decimal digits. -/
def parseDigits (ds : Str) : Nat :=
  ds.foldl (fun n c => n * 10 + (c.toNat - '0'.toNat)) 0

/-- JS object lookup `imageMap[index]` (keys unique, first match). -/
def assocLookup (m : List (Nat × List Str)) (k : Nat) : Option (List Str) :=
  match m with
  | [] => none
  | (k', v) :: rest => if k' = k then some v else assocLookup rest k

/-- The body of the `rawSections.map` in `handleFileSelect`: resolve the
section's images from its topic's page/slide reference.  `imageMap[index]`
is truthy exactly when the key is present (an empty array is truthy, and
then assigning it equals assigning no images). -/
def enrichSection (imageMap : List (Nat × List Str)) (s : StudySection) :
    StudySection :=
  let matchedImages : List Str :=
    match findSlidePageNum s.topic with
    | some ds =>
      match assocLookup imageMap (parseDigits ds) with
      | some imgs => imgs
      | none => []
    | none => []
  { s with images := matchedImages }

/-- Lowercasing, as in the `/i` regex flag and `toLowerCase()`. -/
def lowerStr (s : Str) : Str := s.map Char.toLower

def imapEx : List (Nat × List Str) := [(4, [['u', '1'], ['u', '2']])]

def sectionSlide4 : StudySection :=
  ⟨('S' :: 'l' :: 'i' :: 'd' :: 'e' :: ' ' :: '4' :: ':' :: ' ' :: ['O', 'v']),
    [], [], none, []⟩

def sectionIntro : StudySection :=
  ⟨['I', 'n', 't', 'r', 'o'], [], [], none, []⟩

/-! ### File extraction (file parser service: `extractTextFromFile`,
`extractPdfText`)

```
const fileType = file.type;
const fileName = file.name.toLowerCase();
if (fileType === 'application/pdf' || fileName.endsWith('.pdf'))  return extractPdfText(file);
else if (fileType === pptx-mime || fileName.endsWith('.pptx'))   return extractPptxText(file);
else throw new Error('Unsupported file format. Please upload a PDF or PPTX.');
```
The two concrete extractors are driven by external libraries (pdf.js,
JSZip); they are passed in as parameters.  `extractPdfText`'s own text
loop is embedded over the oracle-supplied page texts, and — exactly as the
code's comment says — it always returns an empty image map. -/

structure FileInfo where
  type : Str
  name : Str
deriving DecidableEq

def pdfMime : Str := ("application/pdf").toList

def pptxMime : Str :=
  ("application/vnd.openxmlformats-officedocument.presentationml.presentation").toList

def pdfExt : Str := ['.', 'p', 'd', 'f']

def pptxExt : Str := ['.', 'p', 'p', 't', 'x']

def isPdfFile (f : FileInfo) : Bool :=
  f.type == pdfMime || pdfExt.isSuffixOf (lowerStr f.name)

def isPptxFile (f : FileInfo) : Bool :=
  f.type == pptxMime || pptxExt.isSuffixOf (lowerStr f.name)

inductive ExtractError where
  | unsupportedFormat : ExtractError
  | libFailure : Str → ExtractError
deriving DecidableEq

/-- `extractTextFromFile`: route to the PDF or PPTX extractor, or throw the
unsupported-format error without invoking either. -/
def extractTextFromFile
    (pdfX pptxX : FileInfo → Except ExtractError ParsedResult)
    (f : FileInfo) : Except ExtractError ParsedResult :=
  if isPdfFile f then pdfX f
  else if isPptxFile f then pptxX f
  else .error .unsupportedFormat

/-- One `--- Page i ---\n…\n\n` block of `extractPdfText`'s text loop. -/
def pageBlock (i : Nat) (pageText : Str) : Str :=
  ("--- Page ").toList ++ Nat.toDigits 10 i ++ (" ---").toList ++ ['\n']
    ++ pageText ++ ['\n', '\n']

/-- `extractPdfText` over the page texts supplied by pdf.js: concatenates
the page blocks and — per the code's own comment, "Returning empty map for
now" — always returns an empty image map. -/
def extractPdfText (pages : List Str) : ParsedResult :=
  { text := (((List.range pages.length).zip pages).map
      (fun pr => pageBlock (pr.1 + 1) pr.2)).flatten
    imageMap := [] }

def docFile : FileInfo := ⟨("text/plain").toList, ("notes.docx").toList⟩

def pptxFileEx : FileInfo := ⟨[], ("deck.pptx").toList⟩

/-! ## Theorems -/

example : chunkText ['a'] 10 = [['a', '\n']] := by decide

example : chunkText ['a', '\n', 'b'] 3 = [['a', '\n', 'b', '\n']] := by decide

example : chunkTextClaimC5 ['a', '\n', 'b'] 3 = [['a', '\n'], ['b', '\n']] := by decide

example : chunkText [] 10 = [] := by decide

example : chunkText ['a', 'b', 'c', '\n', ' '] 2 = [['a', 'b', 'c', '\n']] := by decide

/-! ### Structural lemmas about `chunkText` -/

lemma joinLines_nil : joinLines [] = [] := rfl

lemma joinLines_cons (l : Str) (ls : List Str) :
    joinLines (l :: ls) = l ++ '\n' :: joinLines ls := by
  simp [joinLines]

lemma joinLines_append (a b : List Str) :
    joinLines (a ++ b) = joinLines a ++ joinLines b := by
  simp [joinLines]

lemma joinLines_concat (ls : List Str) (l : Str) :
    joinLines (ls ++ [l]) = joinLines ls ++ l ++ ['\n'] := by
  simp [joinLines_append, joinLines_cons, joinLines_nil]

lemma flatten_map_joinLines (ls : List (List Str)) :
    (ls.map joinLines).flatten = joinLines ls.flatten := by
  induction ls with
  | nil => rfl
  | cons a t ih => simp [ih, joinLines_append]

lemma splitNl_ne_nil (s : Str) : splitNl s ≠ [] := by
  cases s with
  | nil => simp [splitNl]
  | cons c rest =>
    by_cases h : c = '\n'
    · simp [splitNl, h]
    · simp only [splitNl, if_neg h]
      cases splitNl rest <;> simp

lemma joinLines_splitNl (s : Str) : joinLines (splitNl s) = s ++ ['\n'] := by
  induction s with
  | nil => rfl
  | cons c rest ih =>
    by_cases h : c = '\n'
    · subst h
      simp [splitNl, joinLines_cons, ih]
    · simp only [splitNl, if_neg h]
      rcases hr : splitNl rest with _ | ⟨l, ls⟩
      · exact absurd hr (splitNl_ne_nil rest)
      · rw [hr] at ih
        simp only [joinLines_cons] at ih ⊢
        simp [← ih]

/-- Invariant of the `for (const line of lines)` loop of `chunkText`:
the emitted chunks and the accumulator are always newline-joins of full
input lines, and together they account for exactly the lines consumed. -/
lemma foldl_chunkStep_struct (maxLength : Nat) :
    ∀ (lines : List Str) (segss : List (List Str)) (curL : List Str),
      ∃ (segss' : List (List Str)) (curL' : List Str),
        lines.foldl (chunkStep maxLength) (segss.map joinLines, joinLines curL)
          = (segss'.map joinLines, joinLines curL') ∧
        segss'.flatten ++ curL' = segss.flatten ++ curL ++ lines := by
  intro lines
  induction lines with
  | nil =>
    intro segss curL
    exact ⟨segss, curL, rfl, by simp⟩
  | cons l rest ih =>
    intro segss curL
    by_cases h : (joinLines curL).length + l.length > maxLength ∧ 0 < (joinLines curL).length
    · have hstep : chunkStep maxLength (segss.map joinLines, joinLines curL) l
          = ((segss ++ [curL]).map joinLines, joinLines [l]) := by
        simp [chunkStep, if_pos h, joinLines_cons, joinLines_nil]
      obtain ⟨segss', curL', hfold, hacc⟩ := ih (segss ++ [curL]) [l]
      refine ⟨segss', curL', ?_, ?_⟩
      · rw [List.foldl_cons, hstep, hfold]
      · rw [hacc]; simp
    · have hstep : chunkStep maxLength (segss.map joinLines, joinLines curL) l
          = (segss.map joinLines, joinLines (curL ++ [l])) := by
        simp [chunkStep, if_neg h, joinLines_concat]
      obtain ⟨segss', curL', hfold, hacc⟩ := ih segss (curL ++ [l])
      refine ⟨segss', curL', ?_, ?_⟩
      · rw [List.foldl_cons, hstep, hfold]
      · rw [hacc]; simp

/-- `chunkText` splits the input's line list into complete-line segments:
the produced chunks are newline-joins of consecutive whole lines, and a
possible whitespace-only remainder is dropped by the final `trim` test. -/
lemma chunkText_struct (text : Str) (maxLength : Nat) :
    ∃ (segss : List (List Str)) (curL : List Str),
      splitNl text = segss.flatten ++ curL ∧
      chunkText text maxLength =
        (if 0 < (trimStr (joinLines curL)).length
         then (segss ++ [curL]).map joinLines else segss.map joinLines) := by
  obtain ⟨segss', curL', hfold, hacc⟩ :=
    foldl_chunkStep_struct maxLength (splitNl text) [] []
  refine ⟨segss', curL', by simpa using hacc.symm, ?_⟩
  show (if 0 < (trimStr ((splitNl text).foldl (chunkStep maxLength) ([], [])).2).length
        then ((splitNl text).foldl (chunkStep maxLength) ([], [])).1
          ++ [((splitNl text).foldl (chunkStep maxLength) ([], [])).2]
        else ((splitNl text).foldl (chunkStep maxLength) ([], [])).1) = _
  have h0 : (([] : List Str), ([] : Str))
      = (([] : List (List Str)).map joinLines, joinLines []) := by simp [joinLines_nil]
  rw [h0, hfold]
  by_cases h : 0 < (trimStr (joinLines curL')).length
  · simp [if_pos h]
  · simp [if_neg h]

lemma trimStr_eq_nil_iff (s : Str) :
    trimStr s = [] ↔ ∀ c ∈ s, isWsChar c = true := by
  unfold trimStr
  rw [List.reverse_eq_nil_iff, List.dropWhile_eq_nil_iff]
  have hsub : ∀ x ∈ s.dropWhile isWsChar, x ∈ s := by
    intro x hx
    rw [← List.takeWhile_append_dropWhile (p := isWsChar) (l := s)]
    exact List.mem_append.mpr (Or.inr hx)
  constructor
  · intro h c hc
    rcases List.mem_append.mp
        (by rw [List.takeWhile_append_dropWhile (p := isWsChar) (l := s)]; exact hc :
          c ∈ s.takeWhile isWsChar ++ s.dropWhile isWsChar) with h1 | h2
    · exact List.mem_takeWhile_imp h1
    · exact h c (List.mem_reverse.mpr h2)
  · intro h c hc
    exact h c (hsub c (List.mem_reverse.mp hc))

lemma splitNl_no_nl (l : Str) (h : '\n' ∉ l) : splitNl l = [l] := by
  induction l with
  | nil => rfl
  | cons c cs ih =>
    have hc : c ≠ '\n' := fun hcc => h (hcc ▸ List.mem_cons_self c cs)
    have ihc := ih (fun hm => h (List.mem_cons_of_mem c hm))
    simp only [splitNl, if_neg hc, ihc]

lemma splitNl_append_nl (l r : Str) (h : '\n' ∉ l) :
    splitNl (l ++ '\n' :: r) = l :: splitNl r := by
  induction l with
  | nil => simp [splitNl]
  | cons c cs ih =>
    have hc : c ≠ '\n' := fun hcc => h (hcc ▸ List.mem_cons_self c cs)
    have ihc := ih (fun hm => h (List.mem_cons_of_mem c hm))
    show splitNl (c :: (cs ++ '\n' :: r)) = (c :: cs) :: splitNl r
    simp only [splitNl, if_neg hc, ihc]

/-- Claim C4 (amended): no produced chunk splits a line — every chunk is the
newline-join of consecutive whole input lines — and concatenating the chunks
reproduces the input's line sequence with every line newline-terminated
(that is, the input text plus one trailing newline), except that a
whitespace-only final remainder is dropped by the closing `trim` test. -/
theorem claim4_chunk_boundary (text : Str) (maxLength : Nat) :
    ∃ (segss : List (List Str)) (rest : List Str),
      segss.flatten ++ rest = splitNl text ∧
      chunkText text maxLength = segss.map joinLines ∧
      trimStr (joinLines rest) = [] ∧
      (chunkText text maxLength).flatten ++ joinLines rest = text ++ ['\n'] := by
  obtain ⟨segss0, curL, hsplit, hchunk⟩ := chunkText_struct text maxLength
  by_cases h : 0 < (trimStr (joinLines curL)).length
  · refine ⟨segss0 ++ [curL], [], by simpa using hsplit.symm, ?_, rfl, ?_⟩
    · rw [hchunk, if_pos h]
    · rw [hchunk, if_pos h]
      rw [flatten_map_joinLines]
      have : (segss0 ++ [curL]).flatten = splitNl text := by simpa using hsplit.symm
      simp [this, joinLines_splitNl, joinLines_nil]
  · have htrim : trimStr (joinLines curL) = [] :=
      List.eq_nil_of_length_eq_zero (Nat.eq_zero_of_not_pos h)
    refine ⟨segss0, curL, hsplit.symm, ?_, htrim, ?_⟩
    · rw [hchunk, if_neg h]
    · rw [hchunk, if_neg h, flatten_map_joinLines, ← joinLines_append, ← hsplit,
        joinLines_splitNl]

/-- Claim C4 as stated is false: `chunkText` appends a newline terminator to
every line, so already for the one-character input `"a"` the concatenation of
the produced chunks is `"a\n"`, not the original text. -/
theorem claim4_counterexample :
    chunkText ['a'] 10 = [['a', '\n']] ∧
    ¬ (chunkText ['a'] 10).flatten = ['a'] := by decide

/-- A single line with no `'\n'` is never split, whatever `maxLength` is:
it is emitted whole as one (possibly oversized) chunk unless it is
whitespace-only, in which case it is dropped by the final `trim` test. -/
lemma chunkText_single_line (l1 : Str) (maxLength : Nat) (h1 : '\n' ∉ l1) :
    chunkText l1 maxLength =
      (if trimStr (l1 ++ ['\n']) = [] then [] else [l1 ++ ['\n']]) := by
  unfold chunkText
  rw [splitNl_no_nl l1 h1]
  have hstep : chunkStep maxLength ([], []) l1 = ([], l1 ++ ['\n']) := by
    simp [chunkStep]
  simp only [List.foldl_cons, List.foldl_nil, hstep]
  by_cases ht : trimStr (l1 ++ ['\n']) = []
  · simp [ht]
  · have : 0 < (trimStr (l1 ++ ['\n'])).length := List.length_pos.mpr ht
    simp [ht, this]

/-- Two-line input: the accumulator `l1 ++ "\n"` is flushed before `l2`
exactly when its length plus `l2`'s own length (terminator not counted)
exceeds `maxLength`. -/
lemma chunkText_two_lines (l1 l2 : Str) (maxLength : Nat)
    (h1 : '\n' ∉ l1) (h2 : '\n' ∉ l2)
    (hnb : trimStr (l2 ++ ['\n']) ≠ []) :
    chunkText (l1 ++ '\n' :: l2) maxLength =
      (if maxLength < l1.length + 1 + l2.length
       then [l1 ++ ['\n'], l2 ++ ['\n']]
       else [l1 ++ '\n' :: (l2 ++ ['\n'])]) := by
  unfold chunkText
  rw [splitNl_append_nl l1 l2 h1, splitNl_no_nl l2 h2]
  have hstep1 : chunkStep maxLength ([], []) l1 = ([], l1 ++ ['\n']) := by
    simp [chunkStep]
  simp only [List.foldl_cons, List.foldl_nil, hstep1]
  have hlen : (l1 ++ ['\n']).length = l1.length + 1 := by simp
  by_cases hex : maxLength < l1.length + 1 + l2.length
  · have hcond : (l1 ++ ['\n']).length + l2.length > maxLength ∧
        0 < (l1 ++ ['\n']).length := by
      constructor
      · show maxLength < (l1 ++ ['\n']).length + l2.length
        rw [hlen]; omega
      · rw [hlen]; omega
    have hstep2 : chunkStep maxLength ([], l1 ++ ['\n']) l2
        = ([l1 ++ ['\n']], l2 ++ ['\n']) := by
      simp only [chunkStep, if_pos hcond, List.nil_append]
    rw [hstep2]
    have hpos : 0 < (trimStr (l2 ++ ['\n'])).length := List.length_pos.mpr hnb
    rw [if_pos hpos, if_pos hex]
    rfl
  · have hcond : ¬ ((l1 ++ ['\n']).length + l2.length > maxLength ∧
        0 < (l1 ++ ['\n']).length) := by
      rintro ⟨hgt, -⟩
      rw [hlen] at hgt
      omega
    have hstep2 : chunkStep maxLength ([], l1 ++ ['\n']) l2
        = ([], (l1 ++ ['\n']) ++ l2 ++ ['\n']) := by
      simp only [chunkStep, if_neg hcond, List.nil_append]
    rw [hstep2]
    have hwhole : trimStr ((l1 ++ ['\n']) ++ l2 ++ ['\n']) ≠ [] := by
      intro hall
      apply hnb
      rw [trimStr_eq_nil_iff] at hall ⊢
      intro c hc
      rcases List.mem_append.mp hc with hcl | hcn
      · exact hall c (List.mem_append.mpr (Or.inl (List.mem_append.mpr (Or.inr hcl))))
      · exact hall c (List.mem_append.mpr (Or.inr hcn))
    have hpos : 0 < (trimStr ((l1 ++ ['\n']) ++ l2 ++ ['\n'])).length :=
      List.length_pos.mpr hwhole
    rw [if_pos hpos, if_neg hex]
    simp

/-- Claim C5 (amended): the flush test compares `maxLength` against the
accumulator length plus the line's own length, the line terminator not
counted.  A single line (no `'\n'`) is never split whatever `maxLength` is:
it becomes one oversized chunk when it is not whitespace-only, and is
dropped entirely when it is.  For a two-line input the accumulator is
flushed before the second line exactly when `maxLength` is exceeded in this
terminator-free sense. -/
theorem claim5_flush_rule (l1 l2 : Str) (maxLength : Nat)
    (h1 : '\n' ∉ l1) (h2 : '\n' ∉ l2)
    (hnb : trimStr (l2 ++ ['\n']) ≠ []) :
    chunkText l1 maxLength =
      (if trimStr (l1 ++ ['\n']) = [] then [] else [l1 ++ ['\n']]) ∧
    chunkText (l1 ++ '\n' :: l2) maxLength =
      (if maxLength < l1.length + 1 + l2.length
       then [l1 ++ ['\n'], l2 ++ ['\n']]
       else [l1 ++ '\n' :: (l2 ++ ['\n'])]) :=
  ⟨chunkText_single_line l1 maxLength h1, chunkText_two_lines l1 l2 maxLength h1 h2 hnb⟩

/-- Claim C5 as stated is false: C5 counts the line terminator in the
overflow test.  On input `"a\nb"` with `maxLength = 3`, the algorithm of the
claim flushes before `"b"` (accumulator `"a\n"` of length 2 plus line length
1 plus terminator exceeds 3) and yields two chunks, while the code compares
2 + 1 = 3 against 3, does not flush, and yields a single chunk. -/
theorem claim5_counterexample :
    chunkTextClaimC5 ['a', '\n', 'b'] 3 = [['a', '\n'], ['b', '\n']] ∧
    chunkText ['a', '\n', 'b'] 3 = [['a', '\n', 'b', '\n']] ∧
    chunkTextClaimC5 ['a', '\n', 'b'] 3 ≠ chunkText ['a', '\n', 'b'] 3 := by
  decide

/-- Witness for `claim5_flush_rule` at a concrete input: two lines `"ab"`,
`"c"` with `maxLength = 2` flush into two chunks, and the single oversized
line `"ab"` is emitted whole. -/
theorem claim5_witness :
    chunkText (['a', 'b'] ++ '\n' :: ['c']) 2 = [['a', 'b', '\n'], ['c', '\n']] ∧
    chunkText ['a', 'b'] 2 = [['a', 'b', '\n']] := by
  have h := claim5_flush_rule ['a', 'b'] ['c'] 2 (by decide) (by decide) (by decide)
  refine ⟨?_, ?_⟩
  · rw [h.2]; decide
  · rw [h.1]; decide

example :
    generateStudyGuideRun (fun _ _ => .throws) 4 ['a']
      = some (⟨[], 1, [3], [false]⟩, 1) := by decide

example :
    generateStudyGuideRun (fun _ k => if k = 0 then .emptyBody else .throws) 5 ['a']
      = some (⟨[], 1, [4], [false]⟩, 1) := by decide

example :
    generateStudyGuideRun (fun _ _ => .sectionsArr []) 5 ['a']
      = some (⟨[], 0, [1], [true]⟩, 1) := by decide

example :
    generateStudyGuideModel (fun _ _ => .sectionsArr []) 5 ['a']
      = some (.error .noContent) := by decide

example :
    generateStudyGuideModel (fun _ _ => .throws) 4 ['a']
      = some (.error (.connectionFailed 0 1)) := by decide

/-! ### Lemmas about the retry loop -/

lemma runChunk_calls_le (o : Nat → AttemptOutcome) :
    ∀ (fuel retries calls : Nat) (res : List StudySection × Bool × Nat),
      runChunk o fuel retries calls = some res → calls ≤ res.2.2 := by
  intro fuel
  induction fuel with
  | zero => intro r c res h; exact absurd h (by simp [runChunk])
  | succ f ih =>
    intro r c res h
    simp only [runChunk] at h
    by_cases hr : r < maxRetries
    · rw [if_pos hr] at h
      cases ho : o c with
      | sectionsArr l =>
        rw [ho] at h
        injection h with h2
        subst h2
        exact Nat.le_succ c
      | throws =>
        rw [ho] at h
        exact Nat.le_of_succ_le (ih (r + 1) (c + 1) res h)
      | emptyBody =>
        rw [ho] at h
        exact Nat.le_of_succ_le (ih r (c + 1) res h)
    · rw [if_neg hr] at h
      injection h with h2
      subst h2
      exact Nat.le_refl c

lemma runChunk_one_call (o : Nat → AttemptOutcome) (fuel : Nat)
    (res : List StudySection × Bool × Nat)
    (h : runChunk o fuel 0 0 = some res) : 1 ≤ res.2.2 := by
  cases fuel with
  | zero => exact absurd h (by simp [runChunk])
  | succ f =>
    simp only [runChunk] at h
    rw [if_pos (by simp [maxRetries])] at h
    cases ho : o 0 with
    | sectionsArr l =>
      rw [ho] at h
      injection h with h2
      subst h2
      exact Nat.le_refl 1
    | throws =>
      rw [ho] at h
      exact runChunk_calls_le o f 1 1 res h
    | emptyBody =>
      rw [ho] at h
      exact runChunk_calls_le o f 0 1 res h

lemma runChunk_failed_nil (o : Nat → AttemptOutcome) :
    ∀ (fuel retries calls : Nat) (l : List StudySection) (cs : Nat),
      runChunk o fuel retries calls = some (l, false, cs) → l = [] := by
  intro fuel
  induction fuel with
  | zero => intro r c l cs h; exact absurd h (by simp [runChunk])
  | succ f ih =>
    intro r c l cs h
    simp only [runChunk] at h
    by_cases hr : r < maxRetries
    · rw [if_pos hr] at h
      cases ho : o c with
      | sectionsArr l' => rw [ho] at h; injection h with h2; injection h2 with _ h3; injection h3 with h4; exact absurd h4.symm (by simp)
      | throws => rw [ho] at h; exact ih (r + 1) (c + 1) l cs h
      | emptyBody => rw [ho] at h; exact ih r (c + 1) l cs h
    · rw [if_neg hr] at h
      injection h with h2
      injection h2 with h3
      exact h3.symm

lemma runChunk_success_payload (o : Nat → AttemptOutcome) :
    ∀ (fuel retries calls : Nat) (l : List StudySection) (cs : Nat),
      runChunk o fuel retries calls = some (l, true, cs) →
        o (cs - 1) = .sectionsArr l := by
  intro fuel
  induction fuel with
  | zero => intro r c l cs h; exact absurd h (by simp [runChunk])
  | succ f ih =>
    intro r c l cs h
    simp only [runChunk] at h
    by_cases hr : r < maxRetries
    · rw [if_pos hr] at h
      cases ho : o c with
      | sectionsArr l' =>
        rw [ho] at h
        injection h with h2
        injection h2 with hl h3
        injection h3 with _ hcs
        subst hl
        rw [← hcs]
        simpa using ho
      | throws => rw [ho] at h; exact ih (r + 1) (c + 1) l cs h
      | emptyBody => rw [ho] at h; exact ih r (c + 1) l cs h
    · rw [if_neg hr] at h
      injection h with h2
      injection h2 with _ h3
      injection h3 with h4
      exact absurd h4.symm (by simp)

/-- A chunk whose calls all end in the `catch` block makes exactly
`3 - retries` further calls from state `(retries, calls)` and is recorded
as failed with no sections. -/
lemma runChunk_all_throws (o : Nat → AttemptOutcome) (hthrows : ∀ j, o j = .throws) :
    ∀ (fuel retries calls : Nat), retries ≤ 3 → 3 - retries < fuel →
      runChunk o fuel retries calls = some ([], false, calls + (3 - retries)) := by
  intro fuel
  induction fuel with
  | zero => intro r c _ h; omega
  | succ f ih =>
    intro r c hr hf
    simp only [runChunk]
    by_cases hlt : r < maxRetries
    · rw [if_pos hlt, hthrows c]
      have h1 : r + 1 ≤ 3 := by simp [maxRetries] at hlt; omega
      have h2 : 3 - (r + 1) < f := by simp [maxRetries] at hlt; omega
      rw [ih (r + 1) (c + 1) h1 h2]
      have : c + 1 + (3 - (r + 1)) = c + (3 - r) := by
        simp [maxRetries] at hlt; omega
      rw [this]
    · rw [if_neg hlt]
      have : r = 3 := by simp [maxRetries] at hlt; omega
      subst this
      simp

lemma runChunksList_length (fuel : Nat) :
    ∀ (os : List (Nat → AttemptOutcome)) (rs : List (List StudySection × Bool × Nat)),
      runChunksList fuel os = some rs → rs.length = os.length := by
  intro os
  induction os with
  | nil => intro rs h; simp only [runChunksList] at h; injection h with h2; subst h2; rfl
  | cons o os' ih =>
    intro rs h
    simp only [runChunksList] at h
    cases h1 : runChunk o fuel 0 0 with
    | none => rw [h1] at h; exact absurd h (by simp)
    | some r =>
      rw [h1] at h
      cases h2 : runChunksList fuel os' with
      | none => rw [h2] at h; exact absurd h (by simp)
      | some rs' =>
        rw [h2] at h
        injection h with h3
        subst h3
        simpa using ih rs' h2

lemma runChunksList_getElem? (fuel : Nat) :
    ∀ (os : List (Nat → AttemptOutcome)) (rs : List (List StudySection × Bool × Nat)),
      runChunksList fuel os = some rs →
        ∀ (i : Nat) (o : Nat → AttemptOutcome), os[i]? = some o →
          rs[i]? = runChunk o fuel 0 0 := by
  intro os
  induction os with
  | nil => intro rs _ i o ho; simp at ho
  | cons o0 os' ih =>
    intro rs h i o ho
    simp only [runChunksList] at h
    cases h1 : runChunk o0 fuel 0 0 with
    | none => rw [h1] at h; exact absurd h (by simp)
    | some r =>
      rw [h1] at h
      cases h2 : runChunksList fuel os' with
      | none => rw [h2] at h; exact absurd h (by simp)
      | some rs' =>
        rw [h2] at h
        injection h with h3
        subst h3
        cases i with
        | zero =>
          simp only [List.getElem?_cons_zero, Option.some.injEq] at ho
          subst ho
          simpa using h1.symm
        | succ i' =>
          simp only [List.getElem?_cons_succ] at ho ⊢
          exact ih rs' h2 i' o ho

lemma runChunksList_mem (fuel : Nat) :
    ∀ (os : List (Nat → AttemptOutcome)) (rs : List (List StudySection × Bool × Nat)),
      runChunksList fuel os = some rs →
        ∀ r ∈ rs, ∃ o, runChunk o fuel 0 0 = some r := by
  intro os
  induction os with
  | nil =>
    intro rs h r hr
    simp only [runChunksList] at h
    injection h with h2
    subst h2
    simp at hr
  | cons o0 os' ih =>
    intro rs h r hr
    simp only [runChunksList] at h
    cases h1 : runChunk o0 fuel 0 0 with
    | none => rw [h1] at h; exact absurd h (by simp)
    | some r0 =>
      rw [h1] at h
      cases h2 : runChunksList fuel os' with
      | none => rw [h2] at h; exact absurd h (by simp)
      | some rs' =>
        rw [h2] at h
        injection h with h3
        subst h3
        rcases List.mem_cons.mp hr with rfl | hmem
        · exact ⟨o0, h1⟩
        · exact ih rs' h2 r hmem

/-- Invariant connecting a successful `generateStudyGuideRun` to the
per-chunk results it aggregates. -/
lemma generateStudyGuideRun_inv (oracle : Nat → Nat → AttemptOutcome) (fuel : Nat)
    (text : Str) (t : RunTrace) (n : Nat)
    (hrun : generateStudyGuideRun oracle fuel text = some (t, n)) :
    n = (chunkText text CHUNK_SIZE).length ∧
    ∃ rs, runChunksList fuel ((List.range n).map oracle) = some rs ∧
      t.sections = (rs.map (fun r => r.1)).flatten ∧
      t.errorCount = (rs.filter (fun r => !r.2.1)).length ∧
      t.calls = rs.map (fun r => r.2.2) ∧
      t.succ = rs.map (fun r => r.2.1) := by
  simp only [generateStudyGuideRun, runChunks, Option.map_map] at hrun
  rcases Option.map_eq_some'.mp hrun with ⟨rs, hlist, heq⟩
  have hn : n = (chunkText text CHUNK_SIZE).length := by
    have := congrArg Prod.snd heq
    simpa using this.symm
  refine ⟨hn, rs, by rw [hn]; exact hlist, ?_, ?_, ?_, ?_⟩ <;>
    · have := congrArg Prod.fst heq
      simp only [Function.comp] at this
      rw [← this]

lemma filter_not_pos_iff_mem_false (rs : List (List StudySection × Bool × Nat)) :
    0 < (rs.filter (fun r => !r.2.1)).length ↔ false ∈ rs.map (fun r => r.2.1) := by
  rw [List.length_pos]
  constructor
  · intro h
    obtain ⟨r, hr⟩ := List.exists_mem_of_ne_nil _ h
    have hm := List.mem_filter.mp hr
    exact List.mem_map.mpr ⟨r, hm.1, by simpa using hm.2⟩
  · intro h
    obtain ⟨r, hmem, hval⟩ := List.mem_map.mp h
    intro hnil
    have hin : r ∈ rs.filter (fun r => !r.2.1) :=
      List.mem_filter.mpr ⟨hmem, by simp [hval]⟩
    rw [hnil] at hin
    simp at hin

/-- Claim C1 (amended): for every chunk whose generation calls all end in
the `catch` block (transport error, JSON parse failure, or missing /
non-array `sections` field), `generateStudyGuide` makes exactly 3 calls for
that chunk — never more, never fewer — before recording it as failed with no
sections.  An attempt succeeds iff a non-empty response body is returned,
it parses, and its `sections` field is an array — *possibly empty*, since
an empty array is truthy in JS; and a call that resolves with an empty or
absent body never reaches the `catch` block, so it does not count toward
the 3-attempt cap and the chunk is simply re-attempted (see
`claim1_counterexample` for both divergences from the claim as stated). -/
theorem claim1_retry_cap (oracle : Nat → Nat → AttemptOutcome) (fuel : Nat)
    (text : Str) (t : RunTrace) (n i : Nat)
    (hrun : generateStudyGuideRun oracle fuel text = some (t, n))
    (hi : i < n)
    (hthrows : ∀ j, oracle i j = .throws)
    (hfuel : 4 ≤ fuel) :
    t.calls[i]? = some 3 ∧ t.succ[i]? = some false := by
  obtain ⟨hn, rs, hlist, hsec, herr, hcalls, hsucc⟩ :=
    generateStudyGuideRun_inv oracle fuel text t n hrun
  have hos : ((List.range n).map oracle)[i]? = some (oracle i) := by
    rw [List.getElem?_map, List.getElem?_range hi]; rfl
  have hrc : runChunk (oracle i) fuel 0 0 = some ([], false, 0 + (3 - 0)) :=
    runChunk_all_throws (oracle i) hthrows fuel 0 0 (by omega) (by omega)
  have hrs : rs[i]? = some ([], false, 3) := by
    rw [runChunksList_getElem? fuel _ rs hlist i (oracle i) hos, hrc]
  constructor
  · rw [hcalls, List.getElem?_map, hrs]; rfl
  · rw [hsucc, List.getElem?_map, hrs]; rfl

/-- Claim C1 as stated is false on two counts.  First run (one chunk, first
call resolves with an empty body, every later call throws): all attempts
fail, yet the chunk is recorded failed only after **4** calls — the empty
response did not "count as an attempt failure", it was silently re-tried
outside the retry counter.  Second run: a call returning an *empty*
`sections` array is recorded as attempt **success** (`succ = [true]`),
contradicting "an attempt succeeds only if … a non-empty sections array". -/
theorem claim1_counterexample :
    generateStudyGuideRun (fun _ k => if k = 0 then .emptyBody else .throws) 5 ['a']
      = some (⟨[], 1, [4], [false]⟩, 1) ∧
    generateStudyGuideRun (fun _ _ => .sectionsArr []) 5 ['a']
      = some (⟨[], 0, [1], [true]⟩, 1) := by decide

/-- Witness for `claim1_retry_cap`: a one-chunk run whose calls all throw
makes exactly 3 calls and is recorded failed. -/
theorem claim1_witness :
    (⟨[], 1, [3], [false]⟩ : RunTrace).calls[0]? = some 3 ∧
    (⟨[], 1, [3], [false]⟩ : RunTrace).succ[0]? = some false :=
  claim1_retry_cap (fun _ _ => .throws) 4 ['a'] ⟨[], 1, [3], [false]⟩ 1 0
    (by decide) (by decide) (fun _ => rfl) (by decide)

/-- Claim C2: `generateStudyGuide` fails iff zero sections were accumulated
across all chunks; when at least one chunk exhausted its retries
(`0 < errorCount`, equivalently some chunk's success flag is `false`) the
failure is the connection error naming `0` of the total chunk count as
processed, otherwise it is the unreadable/empty-document error; and any
value returned without failing is the non-empty accumulated section list. -/
theorem claim2_failure_taxonomy (oracle : Nat → Nat → AttemptOutcome) (fuel : Nat)
    (text : Str) (t : RunTrace) (n : Nat)
    (hrun : generateStudyGuideRun oracle fuel text = some (t, n)) :
    (generateStudyGuideModel oracle fuel text = some (.ok t.sections) ↔
      t.sections ≠ []) ∧
    (generateStudyGuideModel oracle fuel text
        = some (.error (.connectionFailed 0 n)) ↔
      t.sections = [] ∧ 0 < t.errorCount) ∧
    (generateStudyGuideModel oracle fuel text = some (.error .noContent) ↔
      t.sections = [] ∧ t.errorCount = 0) ∧
    (0 < t.errorCount ↔ false ∈ t.succ) := by
  obtain ⟨hn, rs, hlist, hsec, herr, hcalls, hsucc⟩ :=
    generateStudyGuideRun_inv oracle fuel text t n hrun
  have hmodel : generateStudyGuideModel oracle fuel text
      = some (if t.sections.length = 0 then
          if 0 < t.errorCount then .error (.connectionFailed 0 n)
          else .error .noContent
        else .ok t.sections) := by
    simp only [generateStudyGuideModel]
    rw [hrun]
    rfl
  have hcnt : 0 < t.errorCount ↔ false ∈ t.succ := by
    rw [herr, hsucc]
    exact filter_not_pos_iff_mem_false rs
  rcases hts : t.sections with _ | ⟨s0, srest⟩
  · rw [hts] at hmodel
    by_cases he : 0 < t.errorCount
    · simp only [List.length_nil, if_pos rfl, if_pos he] at hmodel
      refine ⟨?_, ?_, ?_, hcnt⟩ <;> simp [hmodel, he, Nat.pos_iff_ne_zero.mp he]
    · simp only [List.length_nil, if_pos rfl, if_neg he] at hmodel
      refine ⟨?_, ?_, ?_, hcnt⟩ <;>
        simp [hmodel, he, Nat.eq_zero_of_not_pos (by simpa using he)]
  · rw [hts] at hmodel
    simp only [List.length_cons] at hmodel
    rw [if_neg (by omega)] at hmodel
    refine ⟨?_, ?_, ?_, hcnt⟩ <;> simp [hmodel]

/-- Witness for `claim2_failure_taxonomy`: a one-chunk run whose only chunk
exhausts its retries produces the connection failure naming 0 of 1 parts. -/
theorem claim2_witness :
    generateStudyGuideModel (fun _ _ => .throws) 4 ['a']
      = some (.error (.connectionFailed 0 1)) := by
  have h := claim2_failure_taxonomy (fun _ _ => .throws) 4 ['a']
    ⟨[], 1, [3], [false]⟩ 1 (by decide)
  exact (h.2.1).mpr ⟨rfl, by decide⟩

lemma bigText_chunks : chunkText bigText CHUNK_SIZE = [bigLine ++ ['\n'], ['b', '\n']] := by
  have hnl : '\n' ∉ bigLine := by
    intro hmem
    rw [bigLine] at hmem
    exact absurd (List.mem_replicate.mp hmem).2 (by decide)
  have hlen : bigLine.length = 4000 := by
    rw [bigLine, List.length_replicate]
  show chunkText (bigLine ++ '\n' :: ['b']) CHUNK_SIZE = _
  rw [chunkText_two_lines bigLine ['b'] CHUNK_SIZE hnl (by decide) (by decide)]
  rw [if_pos (by rw [hlen]; simp only [CHUNK_SIZE, List.length_cons,
    List.length_nil]; omega)]
  rfl

lemma bigText_nchunks : (chunkText bigText CHUNK_SIZE).length = 2 := by
  rw [bigText_chunks]; rfl

lemma run_bigText (oracle : Nat → Nat → AttemptOutcome) (fuel : Nat) :
    generateStudyGuideRun oracle fuel bigText
      = (runChunks fuel [oracle 0, oracle 1]).map (fun t => (t, 2)) := by
  simp only [generateStudyGuideRun, bigText_nchunks]
  rfl

/-- Claim C3 as stated is false: the value `generateStudyGuide` returns
carries no `chunksFailed` count.  Two two-chunk runs in which the first
chunk succeeds with one section while the second chunk respectively
exhausts its retries (run A: one exhausted chunk) or succeeds with an empty
array (run B: zero exhausted chunks) return **identical** outcomes
`ok [secEx]` — an outcome equal across runs with different numbers of
exhausted chunks cannot carry that number. -/
theorem claim3_counterexample :
    generateStudyGuideRun oracleC3A 4 bigText
      = some (⟨[secEx], 1, [1, 3], [true, false]⟩, 2) ∧
    generateStudyGuideRun oracleC3B 4 bigText
      = some (⟨[secEx], 0, [1, 1], [true, true]⟩, 2) ∧
    generateStudyGuideModel oracleC3A 4 bigText
      = generateStudyGuideModel oracleC3B 4 bigText ∧
    generateStudyGuideModel oracleC3A 4 bigText = some (.ok [secEx]) := by
  have hA : generateStudyGuideRun oracleC3A 4 bigText
      = some (⟨[secEx], 1, [1, 3], [true, false]⟩, 2) := by
    rw [run_bigText]; decide
  have hB : generateStudyGuideRun oracleC3B 4 bigText
      = some (⟨[secEx], 0, [1, 1], [true, true]⟩, 2) := by
    rw [run_bigText]; decide
  refine ⟨hA, hB, ?_, ?_⟩
  · simp only [generateStudyGuideModel]
    rw [hA, hB]
    rfl
  · simp only [generateStudyGuideModel]
    rw [hA]
    rfl

/-- Claim C3 (amended): whenever the accumulated section list is non-empty
— in particular whenever at least one chunk succeeded with a non-empty
`sections` payload — `generateStudyGuide` returns a non-error outcome,
namely exactly the in-order concatenation of the successful chunks'
sections; the number of chunks that exhausted their retries is tracked in
the internal `errorCount` (equal to the number of `false` success flags),
but the returned value is the bare section list and does not carry it. -/
theorem claim3_partial_tolerance (oracle : Nat → Nat → AttemptOutcome) (fuel : Nat)
    (text : Str) (t : RunTrace) (n : Nat)
    (hrun : generateStudyGuideRun oracle fuel text = some (t, n))
    (hne : t.sections ≠ []) :
    generateStudyGuideModel oracle fuel text = some (.ok t.sections) ∧
    t.errorCount = t.succ.count false ∧
    t.calls.length = n ∧ t.succ.length = n := by
  obtain ⟨hn, rs, hlist, hsec, herr, hcalls, hsucc⟩ :=
    generateStudyGuideRun_inv oracle fuel text t n hrun
  have hlen : rs.length = n := by
    rw [runChunksList_length fuel _ rs hlist]
    simp
  refine ⟨?_, ?_, ?_, ?_⟩
  · simp only [generateStudyGuideModel]
    rw [hrun]
    simp only [Option.map_some']
    rw [if_neg (by simpa [List.length_eq_zero] using hne)]
  · have hp : ((fun x => x == false) ∘ fun r : List StudySection × Bool × Nat => r.2.1)
        = fun r : List StudySection × Bool × Nat => !r.2.1 := by
      funext r
      simp only [Function.comp_apply]
      cases r.2.1 <;> rfl
    rw [herr, hsucc, List.count_eq_countP, List.countP_map, hp,
      List.countP_eq_length_filter]
  · rw [hcalls, List.length_map, hlen]
  · rw [hsucc, List.length_map, hlen]

/-- Witness for `claim3_partial_tolerance`: a one-chunk run that succeeds
with one section returns it as a non-error outcome. -/
theorem claim3_witness :
    generateStudyGuideModel (fun _ _ => .sectionsArr [secEx]) 4 ['a']
      = some (.ok (⟨[secEx], 0, [1], [true]⟩ : RunTrace).sections) ∧
    (⟨[secEx], 0, [1], [true]⟩ : RunTrace).errorCount
      = (⟨[secEx], 0, [1], [true]⟩ : RunTrace).succ.count false ∧
    (⟨[secEx], 0, [1], [true]⟩ : RunTrace).calls.length = 1 ∧
    (⟨[secEx], 0, [1], [true]⟩ : RunTrace).succ.length = 1 :=
  claim3_partial_tolerance (fun _ _ => .sectionsArr [secEx]) 4 ['a']
    ⟨[secEx], 0, [1], [true]⟩ 1 (by decide) (by decide)

/-- Claim C8 (amended): the pipeline driver performs **no** minimum-length
pre-flight check.  Whatever the extracted text is, it is chunked and sent
to generation: every chunk receives at least one generation call.  Only a
text that yields zero chunks (whitespace-only) fails without any generation
call, and then with the generic no-content error, not an
insufficient-content one (see `claim8_counterexample`: a 3-character text
triggers real generation calls). -/
theorem claim8_no_preflight (oracle : Nat → Nat → AttemptOutcome) (fuel : Nat)
    (text : Str) (t : RunTrace) (n : Nat)
    (hrun : generateStudyGuideRun oracle fuel text = some (t, n)) :
    t.calls.length = n ∧
    (∀ c ∈ t.calls, 1 ≤ c) ∧
    (n = 0 → t.calls = [] ∧
      generateStudyGuideModel oracle fuel text = some (.error .noContent)) := by
  obtain ⟨hn, rs, hlist, hsec, herr, hcalls, hsucc⟩ :=
    generateStudyGuideRun_inv oracle fuel text t n hrun
  have hlen : rs.length = n := by
    rw [runChunksList_length fuel _ rs hlist]
    simp
  refine ⟨by rw [hcalls, List.length_map, hlen], ?_, ?_⟩
  · intro c hc
    rw [hcalls] at hc
    obtain ⟨r, hmem, hval⟩ := List.mem_map.mp hc
    obtain ⟨o, ho⟩ := runChunksList_mem fuel _ rs hlist r hmem
    rw [← hval]
    exact runChunk_one_call o fuel r ho
  · intro h0
    subst h0
    have hrs : rs = [] := by
      have := hlen
      rwa [List.length_eq_zero] at this
    subst hrs
    refine ⟨by rw [hcalls]; rfl, ?_⟩
    simp only [generateStudyGuideModel]
    rw [hrun]
    simp only [Option.map_some']
    rw [hsec, herr]
    rfl

/-- Claim C8 as stated is false: `handleFileSelect` contains no
minimum-usable-length check.  The 3-character text `"abc"` (far below the
claimed 50-character threshold) is sent straight to generation — the single
chunk receives 3 generation calls — and when they all fail the surfaced
error is the connection failure, not an insufficient-content failure (no
such error exists in the code). -/
theorem claim8_counterexample :
    generateStudyGuideRun (fun _ _ => .throws) 4 ['a', 'b', 'c']
      = some (⟨[], 1, [3], [false]⟩, 1) ∧
    generateStudyGuideModel (fun _ _ => .throws) 4 ['a', 'b', 'c']
      = some (.error (.connectionFailed 0 1)) := by decide

/-- Witness for `claim8_no_preflight`: the 1-character text `"a"` yields one
chunk and that chunk receives 3 calls (so in particular at least one). -/
theorem claim8_witness :
    (⟨[], 1, [3], [false]⟩ : RunTrace).calls.length = 1 ∧ (1 : Nat) ≤ 3 := by
  have h := claim8_no_preflight (fun _ _ => .throws) 4 ['a']
    ⟨[], 1, [3], [false]⟩ 1 (by decide)
  exact ⟨h.1, h.2.1 3 (by decide)⟩

lemma offsetOf_succ {α : Type} (ps : List (List α)) (i : Nat) (li : List α)
    (h : ps[i]? = some li) : offsetOf ps (i + 1) = offsetOf ps i + li.length := by
  unfold offsetOf
  rw [List.take_succ, h, List.map_append, List.sum_append]
  simp

lemma offsetOf_le_succ {α : Type} (ps : List (List α)) (i : Nat) :
    offsetOf ps i ≤ offsetOf ps (i + 1) := by
  unfold offsetOf
  rw [List.take_succ, List.map_append, List.sum_append]
  exact Nat.le_add_right _ _

lemma offsetOf_mono {α : Type} (ps : List (List α)) (i j : Nat) (hij : i ≤ j) :
    offsetOf ps i ≤ offsetOf ps j := by
  obtain ⟨k, rfl⟩ := Nat.exists_eq_add_of_le hij
  clear hij
  induction k with
  | zero => exact Nat.le_refl _
  | succ k' ih => exact Nat.le_trans ih (offsetOf_le_succ ps (i + k'))

lemma flatten_block {α : Type} :
    ∀ (ps : List (List α)) (i : Nat) (li : List α), ps[i]? = some li →
      (ps.flatten.drop (offsetOf ps i)).take li.length = li := by
  intro ps
  induction ps with
  | nil => intro i li h; simp at h
  | cons p pt ih =>
    intro i li h
    cases i with
    | zero =>
      simp only [List.getElem?_cons_zero, Option.some.injEq] at h
      subst h
      simp only [offsetOf, List.take_zero, List.map_nil, List.sum_nil,
        List.flatten_cons, List.drop_zero]
      exact List.take_left _ _
    | succ i' =>
      simp only [List.getElem?_cons_succ] at h
      have hoff : offsetOf (p :: pt) (i' + 1) = p.length + offsetOf pt i' := by
        unfold offsetOf
        rw [List.take_succ_cons]
        simp
      rw [hoff, List.flatten_cons, ← List.drop_drop, List.drop_left]
      exact ih i' li h

/-- Claim C6: the final document is the in-order flattening of the
per-chunk section lists; chunk `i`'s sections form the contiguous block at
offset `offsetOf ps i`, and for chunks `i < j` the whole block of chunk `i`
ends no later than chunk `j`'s block starts.  Within a chunk, a successful
chunk's block is exactly the list the generation capability returned on its
succeeding call, unchanged and in order. -/
theorem claim6_order (oracle : Nat → Nat → AttemptOutcome) (fuel : Nat) (text : Str)
    (t : RunTrace) (n : Nat) (ps : List (List StudySection))
    (i j k : Nat) (li lj lk : List StudySection) (ck : Nat)
    (hrun : generateStudyGuideRun oracle fuel text = some (t, n))
    (hps : chunkSecs oracle fuel text = some ps)
    (hij : i < j)
    (hli : ps[i]? = some li) (hlj : ps[j]? = some lj)
    (hlk : ps[k]? = some lk)
    (hsk : t.succ[k]? = some true) (hck : t.calls[k]? = some ck) :
    t.sections = ps.flatten ∧
    (t.sections.drop (offsetOf ps i)).take li.length = li ∧
    (t.sections.drop (offsetOf ps j)).take lj.length = lj ∧
    offsetOf ps i + li.length ≤ offsetOf ps j ∧
    oracle k (ck - 1) = .sectionsArr lk := by
  obtain ⟨hn, rs, hlist, hsec, herr, hcalls, hsucc⟩ :=
    generateStudyGuideRun_inv oracle fuel text t n hrun
  simp only [chunkSecs] at hps
  rw [← hn, hlist] at hps
  simp only [Option.map_some', Option.some.injEq] at hps
  subst hps
  have hsec' : t.sections = (rs.map (fun r => r.1)).flatten := hsec
  refine ⟨hsec', ?_, ?_, ?_, ?_⟩
  · rw [hsec']; exact flatten_block _ i li hli
  · rw [hsec']; exact flatten_block _ j lj hlj
  · calc offsetOf (rs.map (fun r => r.1)) i + li.length
        = offsetOf (rs.map (fun r => r.1)) (i + 1) :=
          (offsetOf_succ _ i li hli).symm
      _ ≤ offsetOf (rs.map (fun r => r.1)) j := offsetOf_mono _ (i + 1) j hij
  · have hkn : k < n := by
      rcases List.getElem?_eq_some.mp hlk with ⟨hk, -⟩
      rw [List.length_map, runChunksList_length fuel _ rs hlist] at hk
      simpa using hk
    have hos : ((List.range n).map oracle)[k]? = some (oracle k) := by
      rw [List.getElem?_map, List.getElem?_range hkn]; rfl
    have hrsk := runChunksList_getElem? fuel _ rs hlist k (oracle k) hos
    cases hrk : rs[k]? with
    | none => rw [List.getElem?_map, hrk] at hlk; simp at hlk
    | some rk =>
      obtain ⟨rk1, rk2, rk3⟩ := rk
      rw [List.getElem?_map, hrk] at hlk
      simp only [Option.map_some', Option.some.injEq] at hlk
      rw [hsucc, List.getElem?_map, hrk] at hsk
      simp only [Option.map_some', Option.some.injEq] at hsk
      rw [hcalls, List.getElem?_map, hrk] at hck
      simp only [Option.map_some', Option.some.injEq] at hck
      have hchunk : runChunk (oracle k) fuel 0 0 = some (lk, true, ck) := by
        rw [← hrsk, hrk, hlk, hsk, hck]
      exact runChunk_success_payload (oracle k) fuel 0 0 lk ck hchunk

lemma chunkSecs_bigText (oracle : Nat → Nat → AttemptOutcome) (fuel : Nat) :
    chunkSecs oracle fuel bigText
      = (runChunksList fuel [oracle 0, oracle 1]).map
          (fun rs => rs.map (fun r => r.1)) := by
  simp only [chunkSecs, bigText_nchunks]
  rfl

/-- Witness for `claim6_order`: a concrete two-chunk run in which chunk 0
returns two sections and chunk 1 one; the document is their in-order
concatenation, the blocks sit at offsets 0 and 2, and chunk 1's block is
the oracle's payload verbatim. -/
theorem claim6_witness :
    (⟨[secEx, secEx2, secEx2], 0, [1, 1], [true, true]⟩ : RunTrace).sections
        = [[secEx, secEx2], [secEx2]].flatten ∧
    ((⟨[secEx, secEx2, secEx2], 0, [1, 1], [true, true]⟩ : RunTrace).sections.drop
        (offsetOf [[secEx, secEx2], [secEx2]] 0)).take
        ([secEx, secEx2] : List StudySection).length = [secEx, secEx2] ∧
    ((⟨[secEx, secEx2, secEx2], 0, [1, 1], [true, true]⟩ : RunTrace).sections.drop
        (offsetOf [[secEx, secEx2], [secEx2]] 1)).take
        ([secEx2] : List StudySection).length = [secEx2] ∧
    offsetOf [[secEx, secEx2], [secEx2]] 0
        + ([secEx, secEx2] : List StudySection).length
      ≤ offsetOf [[secEx, secEx2], [secEx2]] 1 ∧
    oracleC6 1 0 = .sectionsArr [secEx2] :=
  claim6_order oracleC6 4 bigText
    ⟨[secEx, secEx2, secEx2], 0, [1, 1], [true, true]⟩ 2
    [[secEx, secEx2], [secEx2]] 0 1 1 [secEx, secEx2] [secEx2] [secEx2] 1
    (by rw [run_bigText]; decide)
    (by rw [chunkSecs_bigText]; decide)
    (by decide) (by decide) (by decide) (by decide) (by decide) (by decide)

example :
    findSlidePageNum ('S' :: ['l', 'i', 'd', 'e', ' ', '4', ':', ' ', 'O'])
      = some ['4'] := by decide

example : findSlidePageNum ['p', 'A', 'g', 'E', '1', '2'] = some ['1', '2'] := by decide

example : findSlidePageNum ['S', 'l', 'i', 'd', 'e', ' ', ' ', '4'] = none := by decide

example : findSlidePageNum ['I', 'n', 't', 'r', 'o'] = none := by decide

example : parseDigits ['1', '2'] = 12 := by decide

lemma ciStrip_sound : ∀ (pat s rest : Str), ciStrip pat s = some rest →
    ∃ key, s = key ++ rest ∧ lowerStr key = pat := by
  intro pat
  induction pat with
  | nil =>
    intro s rest h
    simp only [ciStrip, Option.some.injEq] at h
    exact ⟨[], by rw [h]; rfl, rfl⟩
  | cons p ps ih =>
    intro s rest h
    cases s with
    | nil => simp [ciStrip] at h
    | cons c cs =>
      simp only [ciStrip] at h
      by_cases hc : c.toLower = p
      · rw [if_pos hc] at h
        obtain ⟨key, hk1, hk2⟩ := ih cs rest h
        refine ⟨c :: key, by simp [hk1], ?_⟩
        simp only [lowerStr, List.map_cons] at hk2 ⊢
        rw [hc, hk2]
      · rw [if_neg hc] at h
        exact absurd h (by simp)

lemma takeWhile_dropWhile_nil {α : Type} (p : α → Bool) :
    ∀ (l : List α), ((l.dropWhile p).takeWhile p) = [] := by
  intro l
  induction l with
  | nil => rfl
  | cons c cs ih =>
    by_cases hc : p c
    · simp [List.dropWhile_cons, hc, ih]
    · simp [List.dropWhile_cons, hc, List.takeWhile_cons, hc]

lemma digitsRun_sound (s ds : Str) (h : digitsRun s = some ds) :
    ds ≠ [] ∧ ds.all Char.isDigit = true ∧
    ∃ rest, s = ds ++ rest ∧ rest.takeWhile Char.isDigit = [] := by
  unfold digitsRun at h
  cases ht : s.takeWhile Char.isDigit with
  | nil => rw [ht] at h; simp at h
  | cons d dt =>
    rw [ht] at h
    injection h with h2
    subst h2
    refine ⟨by simp, ?_, s.dropWhile Char.isDigit, ?_, takeWhile_dropWhile_nil _ _⟩
    · rw [← ht]
      apply List.all_eq_true.mpr
      intro x hx
      exact List.mem_takeWhile_imp hx
    · rw [← ht, List.takeWhile_append_dropWhile]

lemma matchAfterKey_sound (s ds : Str) (h : matchAfterKey s = some ds) :
    ∃ sep rest, s = sep ++ ds ++ rest ∧
      (sep = [] ∨ ∃ w, sep = [w] ∧ isWsChar w = true) ∧
      ds ≠ [] ∧ ds.all Char.isDigit = true ∧
      rest.takeWhile Char.isDigit = [] := by
  cases s with
  | nil => simp [matchAfterKey] at h
  | cons c cs =>
    simp only [matchAfterKey] at h
    by_cases hw : isWsChar c
    · rw [if_pos hw] at h
      obtain ⟨hne, hdig, rest, hcs, hrest⟩ := digitsRun_sound cs ds h
      exact ⟨[c], rest, by simp [hcs], Or.inr ⟨c, rfl, hw⟩, hne, hdig, hrest⟩
    · rw [if_neg hw] at h
      obtain ⟨hne, hdig, rest, hcs, hrest⟩ := digitsRun_sound (c :: cs) ds h
      exact ⟨[], rest, by simpa using hcs, Or.inl rfl, hne, hdig, hrest⟩

lemma matchKeyAt_sound (s ds : Str) (h : matchKeyAt s = some ds) :
    ∃ key sep rest, s = key ++ sep ++ ds ++ rest ∧
      (lowerStr key = slideKey ∨ lowerStr key = pageKey) ∧
      (sep = [] ∨ ∃ w, sep = [w] ∧ isWsChar w = true) ∧
      ds ≠ [] ∧ ds.all Char.isDigit = true ∧
      rest.takeWhile Char.isDigit = [] := by
  unfold matchKeyAt at h
  cases h1 : ciStrip slideKey s with
  | some rest1 =>
    rw [h1] at h
    obtain ⟨key, hs, hkey⟩ := ciStrip_sound slideKey s rest1 h1
    obtain ⟨sep, rest, hr1, hsep, hne, hdig, hrest⟩ := matchAfterKey_sound rest1 ds h
    exact ⟨key, sep, rest, by rw [hs, hr1]; simp [List.append_assoc],
      Or.inl hkey, hsep, hne, hdig, hrest⟩
  | none =>
    rw [h1] at h
    cases h2 : ciStrip pageKey s with
    | some rest2 =>
      rw [h2] at h
      obtain ⟨key, hs, hkey⟩ := ciStrip_sound pageKey s rest2 h2
      obtain ⟨sep, rest, hr1, hsep, hne, hdig, hrest⟩ := matchAfterKey_sound rest2 ds h
      exact ⟨key, sep, rest, by rw [hs, hr1]; simp [List.append_assoc],
        Or.inr hkey, hsep, hne, hdig, hrest⟩
    | none => rw [h2] at h; exact absurd h (by simp)

lemma findSlidePageNum_sound : ∀ (t ds : Str), findSlidePageNum t = some ds →
    ∃ pre suf, t = pre ++ suf ∧ matchKeyAt suf = some ds ∧
      ∀ q, q < pre.length → matchKeyAt (t.drop q) = none := by
  intro t
  induction t with
  | nil => intro ds h; simp [findSlidePageNum] at h
  | cons c cs ih =>
    intro ds h
    simp only [findSlidePageNum] at h
    cases h1 : matchKeyAt (c :: cs) with
    | some ds0 =>
      rw [h1] at h
      injection h with h2
      subst h2
      exact ⟨[], c :: cs, rfl, h1, by intro q hq; simp at hq⟩
    | none =>
      rw [h1] at h
      obtain ⟨pre, suf, ht, hm, hleft⟩ := ih ds h
      refine ⟨c :: pre, suf, by simp [ht], hm, ?_⟩
      intro q hq
      cases q with
      | zero => simpa using h1
      | succ q' =>
        simp only [List.drop_succ_cons]
        exact hleft q' (by simpa using hq)

/-- Claim C7: the reconciler searches the topic for the first (leftmost)
occurrence of the word `Slide` or `Page` (case-insensitive), optionally
followed by one whitespace character, immediately followed by a maximal
non-empty digit run; the digit run is parsed as `n` and the section
receives the full image sequence stored at key `n` verbatim (hence in its
original order) whenever the key is present; a section with no match, or
whose `n` is absent from the index, gets an empty image list regardless of
the index's contents. -/
theorem claim7_reconciliation (imap : List (Nat × List Str)) (s : StudySection) :
    (enrichSection imap s).images
      = (findSlidePageNum s.topic).elim []
          (fun ds => (assocLookup imap (parseDigits ds)).getD []) ∧
    (∀ ds, findSlidePageNum s.topic = some ds →
      ∃ pre key sep rest,
        s.topic = pre ++ key ++ sep ++ ds ++ rest ∧
        (lowerStr key = slideKey ∨ lowerStr key = pageKey) ∧
        (sep = [] ∨ ∃ w, sep = [w] ∧ isWsChar w = true) ∧
        ds ≠ [] ∧ ds.all Char.isDigit = true ∧
        rest.takeWhile Char.isDigit = [] ∧
        (∀ q, q < pre.length → matchKeyAt (s.topic.drop q) = none)) := by
  constructor
  · unfold enrichSection
    cases hf : findSlidePageNum s.topic with
    | none => simp [hf]
    | some ds =>
      simp only [hf, Option.elim]
      cases hl : assocLookup imap (parseDigits ds) <;> simp [hl]
  · intro ds hf
    obtain ⟨pre, suf, ht, hm, hleft⟩ := findSlidePageNum_sound s.topic ds hf
    obtain ⟨key, sep, rest, hsuf, hkey, hsep, hne, hdig, hrest⟩ :=
      matchKeyAt_sound suf ds hm
    refine ⟨pre, key, sep, rest, ?_, hkey, hsep, hne, hdig, hrest, hleft⟩
    rw [ht, hsuf]
    simp [List.append_assoc]

/-- Witness for `claim7_reconciliation`, the spec's own determinism
example: topic `"Slide 4: Ov…"` with two images at key 4 receives exactly
those two images in order; topic `"Intro"` receives none although the
index is non-empty. -/

theorem claim7_witness :
    (enrichSection imapEx sectionSlide4).images = [['u', '1'], ['u', '2']] ∧
    (enrichSection imapEx sectionIntro).images = [] := by
  have h1 := (claim7_reconciliation imapEx sectionSlide4).1
  have h2 := (claim7_reconciliation imapEx sectionIntro).1
  constructor
  · rw [h1]; decide
  · rw [h2]; decide

/-- Claim C9: a file that is neither a PDF nor a PPTX — by MIME type or by
(lowercased) filename suffix — makes `extractTextFromFile` fail with the
unsupported-format error, and no extraction is performed: the result is the
same whatever the two extractors are. -/
theorem claim9_unsupported
    (pdfX pptxX pdfX2 pptxX2 : FileInfo → Except ExtractError ParsedResult)
    (f : FileInfo)
    (h1 : isPdfFile f = false) (h2 : isPptxFile f = false) :
    extractTextFromFile pdfX pptxX f = .error .unsupportedFormat ∧
    extractTextFromFile pdfX pptxX f = extractTextFromFile pdfX2 pptxX2 f := by
  constructor <;> simp [extractTextFromFile, h1, h2]

/-- Witness for `claim9_unsupported`: a `.docx` upload is rejected. -/
theorem claim9_witness :
    extractTextFromFile (fun _ => .error (.libFailure []))
        (fun _ => .error (.libFailure [])) docFile
      = .error .unsupportedFormat :=
  (claim9_unsupported (fun _ => .error (.libFailure []))
    (fun _ => .error (.libFailure [])) (fun _ => .ok ⟨[], []⟩)
    (fun _ => .ok ⟨[], []⟩) docFile (by decide) (by decide)).1

/-- Claim C10: `extractPdfText` always returns an empty image index, so a
section enriched against a PDF's image index gets an empty image list
whatever its topic says; and when `extractTextFromFile` (with the real PDF
branch) produces a result whose index gives some section a non-empty image
list, the input must have been routed to the PPTX branch — only PPTX
inputs can yield sections with images. -/
theorem claim10_pdf_no_images
    (pdfPages : FileInfo → List Str)
    (pptxX : FileInfo → Except ExtractError ParsedResult)
    (pages : List Str) (s : StudySection) (f : FileInfo) :
    (extractPdfText pages).imageMap = [] ∧
    (enrichSection (extractPdfText pages).imageMap s).images = [] ∧
    (∀ r, extractTextFromFile (fun g => .ok (extractPdfText (pdfPages g))) pptxX f
        = .ok r →
      (enrichSection r.imageMap s).images ≠ [] →
      isPptxFile f = true ∧ isPdfFile f = false) := by
  have hempty : ∀ s2 : StudySection,
      (enrichSection ([] : List (Nat × List Str)) s2).images = [] := by
    intro s2
    unfold enrichSection
    cases findSlidePageNum s2.topic <;> simp [assocLookup]
  refine ⟨rfl, hempty s, ?_⟩
  intro r hr hne
  by_cases hpdf : isPdfFile f = true
  · exfalso
    unfold extractTextFromFile at hr
    rw [if_pos hpdf] at hr
    injection hr with h2
    apply hne
    rw [← h2]
    exact hempty s
  · unfold extractTextFromFile at hr
    rw [if_neg hpdf] at hr
    by_cases hpptx : isPptxFile f = true
    · refine ⟨hpptx, ?_⟩
      revert hpdf
      cases isPdfFile f <;> simp
    · rw [if_neg hpptx] at hr
      exact absurd hr (by simp)

/-- Witness for `claim10_pdf_no_images`: a PDF extraction yields an empty
image index and an image-less section even for a `"Slide 4"` topic, while a
`.pptx` input routed to the PPTX branch can produce images. -/
theorem claim10_witness :
    (extractPdfText []).imageMap = [] ∧
    (enrichSection (extractPdfText []).imageMap sectionSlide4).images = [] ∧
    (isPptxFile pptxFileEx = true ∧ isPdfFile pptxFileEx = false) := by
  have h := claim10_pdf_no_images (fun _ => [])
    (fun _ => .ok ⟨[], [(4, [['u']])]⟩) [] sectionSlide4 pptxFileEx
  exact ⟨h.1, h.2.1, h.2.2 ⟨[], [(4, [['u']])]⟩ (by decide) (by decide)⟩

end BilingualScholar

